import Mathlib

/-
Shallow embedding of the one_time_download server (src/main.go).

The embedding covers: the format-id validation used by the /download
handler, the /download handler's control flow up to the external-tool
invocation, the metadata fetch pipeline (URL validation, Redis cache
lookup, yt-dlp invocation, JSON decoding, normalization, cache write),
the JSON (de)serialization of the view model, and the submit handler's
access to the first media entry.

External collaborators (Go standard library and services) are modelled
explicitly where the control flow depends on them:
  - Go's net/url.ParseRequestURI is modelled by parseRequestURI below;
  - Go's encoding/json is modelled at two levels: a JSON text parser
    (jsonDecode) and schema-directed conversions that mirror
    json.Unmarshal's leniency (missing fields keep the zero value,
    unknown fields are ignored, null is a no-op, later duplicate keys
    overwrite earlier ones);
  - the Redis client and the yt-dlp subprocess are inputs of the model
    (FetchEnv), and the side effects performed on them are recorded in
    an effect trace.
-/

/-! ## Format id validation (src/main.go lines 64-68) -/

/-- One character of the Go regular expression character class
`[a-zA-Z0-9+_-]`, in the order written in the source. -/
def goFormatIDChar (c : Char) : Bool :=
  (decide ('a' ≤ c) && decide (c ≤ 'z')) ||
  ((decide ('A' ≤ c) && decide (c ≤ 'Z')) ||
  ((decide ('0' ≤ c) && decide (c ≤ '9')) ||
  ((c == '+') ||
  ((c == '_') ||
  (c == '-')))))

/-- Models Go `formatIDRegex.MatchString(id)` for the anchored pattern
of src/main.go line 64: the pattern is a single character class with a
`+` repetition anchored by both `^` and `$` (Go's `$` matches only the
end of the text, multi-line mode is off), so a string matches exactly
when it is non-empty and every character is in the class. -/
def formatIDRegexMatchString (s : String) : Bool :=
  !s.data.isEmpty && s.data.all goFormatIDChar

/-- src/main.go lines 66-68: `id != "" && formatIDRegex.MatchString(id)`. -/
def isValidFormatID (id : String) : Bool :=
  decide (id ≠ "") && formatIDRegexMatchString id

/-- One character of the character class of the spec's pattern
`^[A-Za-z0-9+_-]+$`, in the order written in the spec. -/
def specFormatChar (c : Char) : Bool :=
  (decide ('A' ≤ c) && decide (c ≤ 'Z')) ||
  ((decide ('a' ≤ c) && decide (c ≤ 'z')) ||
  ((decide ('0' ≤ c) && decide (c ≤ '9')) ||
  ((c == '+') ||
  ((c == '_') ||
  (c == '-')))))

/-- The spec's pattern `^[A-Za-z0-9+_-]+$`, read directly from the
spec's words: non-empty and every character in the class. -/
def matchesSpecPattern (s : String) : Bool :=
  !s.data.isEmpty && s.data.all specFormatChar

/-! ## The view model and the raw external schema (src/main.go lines 21-59) -/

/-- One element of `VideoResponse.Medias` (the anonymous struct type of
src/main.go lines 32-38), with its JSON tags `format_id`, `quality`,
`width`, `height`, `ext`. -/
structure MediaEntry where
  FormatID : String
  Quality : String
  Width : Int
  Height : Int
  Ext : String
deriving DecidableEq, Repr

/-- src/main.go lines 25-40, JSON tags `url`, `source`, `id`, `author`,
`title`, `thumbnail`, `medias`, `error`.  Go's distinction between a nil
slice and an empty non-nil slice is not observable in this model; both
are the empty list. -/
structure VideoResponse where
  URL : String
  Source : String
  ID : String
  Author : String
  Title : String
  Thumbnail : String
  Medias : List MediaEntry
  Error : Bool
deriving DecidableEq, Repr

/-- The Go zero value of `VideoResponse`. -/
def zeroVideoResponse : VideoResponse :=
  { URL := "", Source := "", ID := "", Author := "", Title := "",
    Thumbnail := "", Medias := [], Error := false }

/-- The Go zero value of the medias element struct. -/
def zeroMediaEntry : MediaEntry :=
  { FormatID := "", Quality := "", Width := 0, Height := 0, Ext := "" }

/-- One element of `YTDLPOutput.Formats` (src/main.go lines 48-58), with
JSON tags `format_id`, `ext`, `format`, `width`, `height`, `acodec`,
`vcodec`, `fps`, `filesize`. -/
structure YTFormat where
  FormatID : String
  Ext : String
  Format : String
  Width : Int
  Height : Int
  Acodec : String
  Vcodec : String
  FPS : Int
  Filesize : Int
deriving DecidableEq, Repr

/-- The Go zero value of the formats element struct. -/
def zeroYTFormat : YTFormat :=
  { FormatID := "", Ext := "", Format := "", Width := 0, Height := 0,
    Acodec := "", Vcodec := "", FPS := 0, Filesize := 0 }

/-- src/main.go lines 42-59, JSON tags `id`, `title`, `uploader`,
`thumbnail`, `webpage_url`, `formats`. -/
structure YTDLPOutput where
  ID : String
  Title : String
  Uploader : String
  Thumbnail : String
  WebpageURL : String
  Formats : List YTFormat
deriving DecidableEq, Repr

/-- The Go zero value of `YTDLPOutput`. -/
def zeroYTDLPOutput : YTDLPOutput :=
  { ID := "", Title := "", Uploader := "", Thumbnail := "",
    WebpageURL := "", Formats := [] }

/-! ## Normalization of the raw format list (src/main.go lines 244-264) -/

/-- The struct literal appended at src/main.go lines 251-263. -/
def toMediaEntry (f : YTFormat) : MediaEntry :=
  { FormatID := f.FormatID, Quality := f.Format, Width := f.Width,
    Height := f.Height, Ext := f.Ext }

/-- The loop of src/main.go lines 244-264: skip entries with an empty
`format_id`, skip entries whose `vcodec` and `acodec` are both `"none"`,
append the converted remainder in iteration order. -/
def buildMedias : List YTFormat → List MediaEntry
  | [] => []
  | f :: rest =>
    if f.FormatID == "" then buildMedias rest
    else if f.Vcodec == "none" && f.Acodec == "none" then buildMedias rest
    else toMediaEntry f :: buildMedias rest

/-- The filter of section 3 of the spec, read from the spec's words: an
entry is kept when its `format_id` is non-empty and it is not the case
that both codecs are `"none"`. -/
def specKeep (f : YTFormat) : Bool :=
  (f.FormatID != "") && !(f.Vcodec == "none" && f.Acodec == "none")

/-- The `VideoResponse` literal of src/main.go lines 236-242 followed by
the loop of lines 244-264; `Source` and `Error` keep their zero values. -/
def buildVideoResponse (y : YTDLPOutput) : VideoResponse :=
  { URL := y.WebpageURL, Source := "", ID := y.ID, Author := y.Uploader,
    Title := y.Title, Thumbnail := y.Thumbnail,
    Medias := buildMedias y.Formats, Error := false }

/-! ## JSON values and the encoding/json model for the two schemas

Go's `encoding/json` is modelled at the level of JSON values: `Json`
is the parse tree, `marshal*` mirrors `json.Marshal` for the given
struct (its fields in declaration order, under their JSON tags), and
`*FromJson` mirrors `json.Unmarshal` into a zero value of the struct:
the top level must be an object (or `null`, a no-op), unknown keys are
ignored, `null` field values are no-ops, later duplicate keys overwrite
earlier ones, and a type mismatch is an error.  Numbers are modelled as
integers; fractional numbers do not occur in the claims.  Go's
case-insensitive fallback for key matching is not modelled (marshalled
output always uses the exact tags). -/

inductive Json where
  | null : Json
  | bool : Bool → Json
  | num : Int → Json
  | str : String → Json
  | arr : List Json → Json
  | obj : List (String × Json) → Json
deriving Repr

/-- Go `json.Marshal` of one element of `VideoResponse.Medias`. -/
def marshalMediaEntry (m : MediaEntry) : Json :=
  .obj [("format_id", .str m.FormatID), ("quality", .str m.Quality),
        ("width", .num m.Width), ("height", .num m.Height),
        ("ext", .str m.Ext)]

/-- Go `json.Marshal` of a `VideoResponse` (src/main.go line 266). -/
def marshalVideoResponse (v : VideoResponse) : Json :=
  .obj [("url", .str v.URL), ("source", .str v.Source), ("id", .str v.ID),
        ("author", .str v.Author), ("title", .str v.Title),
        ("thumbnail", .str v.Thumbnail),
        ("medias", .arr (v.Medias.map marshalMediaEntry)),
        ("error", .bool v.Error)]

/-- Unmarshalling a JSON value into a string field holding `cur`:
a string replaces it, `null` is a no-op, anything else is an error. -/
def jSetStr (j : Json) (cur : String) : Option String :=
  match j with
  | .str s => some s
  | .null => some cur
  | _ => none

/-- Unmarshalling a JSON value into an integer field holding `cur`. -/
def jSetInt (j : Json) (cur : Int) : Option Int :=
  match j with
  | .num n => some n
  | .null => some cur
  | _ => none

/-- Unmarshalling a JSON value into a boolean field holding `cur`. -/
def jSetBool (j : Json) (cur : Bool) : Option Bool :=
  match j with
  | .bool b => some b
  | .null => some cur
  | _ => none

/-- One key/value pair applied to a medias element being decoded. -/
def applyMediaField (m : MediaEntry) (kv : String × Json) : Option MediaEntry :=
  if kv.1 == "format_id" then (jSetStr kv.2 m.FormatID).map fun x => { m with FormatID := x }
  else if kv.1 == "quality" then (jSetStr kv.2 m.Quality).map fun x => { m with Quality := x }
  else if kv.1 == "width" then (jSetInt kv.2 m.Width).map fun x => { m with Width := x }
  else if kv.1 == "height" then (jSetInt kv.2 m.Height).map fun x => { m with Height := x }
  else if kv.1 == "ext" then (jSetStr kv.2 m.Ext).map fun x => { m with Ext := x }
  else some m

/-- Sequential application of an object's key/value pairs to a medias
element being decoded. -/
def mediaFields (m : MediaEntry) : List (String × Json) → Option MediaEntry
  | [] => some m
  | kv :: rest =>
    match applyMediaField m kv with
    | none => none
    | some m2 => mediaFields m2 rest

/-- Go `json.Unmarshal` of one array element into the medias element
struct. -/
def mediaEntryFromJson (j : Json) : Option MediaEntry :=
  match j with
  | .obj fields => mediaFields zeroMediaEntry fields
  | .null => some zeroMediaEntry
  | _ => none

/-- Go `json.Unmarshal` of a JSON array into the medias slice. -/
def mediaListFromJson : List Json → Option (List MediaEntry)
  | [] => some []
  | j :: rest =>
    match mediaEntryFromJson j with
    | none => none
    | some m => (mediaListFromJson rest).map fun ms => m :: ms

/-- One key/value pair applied to a `VideoResponse` being decoded. -/
def applyVRField (v : VideoResponse) (kv : String × Json) : Option VideoResponse :=
  if kv.1 == "url" then (jSetStr kv.2 v.URL).map fun x => { v with URL := x }
  else if kv.1 == "source" then (jSetStr kv.2 v.Source).map fun x => { v with Source := x }
  else if kv.1 == "id" then (jSetStr kv.2 v.ID).map fun x => { v with ID := x }
  else if kv.1 == "author" then (jSetStr kv.2 v.Author).map fun x => { v with Author := x }
  else if kv.1 == "title" then (jSetStr kv.2 v.Title).map fun x => { v with Title := x }
  else if kv.1 == "thumbnail" then (jSetStr kv.2 v.Thumbnail).map fun x => { v with Thumbnail := x }
  else if kv.1 == "medias" then
    match kv.2 with
    | .null => some v
    | .arr l => (mediaListFromJson l).map fun ms => { v with Medias := ms }
    | _ => none
  else if kv.1 == "error" then (jSetBool kv.2 v.Error).map fun x => { v with Error := x }
  else some v

/-- Sequential application of an object's key/value pairs to a
`VideoResponse` being decoded. -/
def vrFields (v : VideoResponse) : List (String × Json) → Option VideoResponse
  | [] => some v
  | kv :: rest =>
    match applyVRField v kv with
    | none => none
    | some v2 => vrFields v2 rest

/-- Go `json.Unmarshal([]byte(...), &v)` for `v : VideoResponse`
(src/main.go line 220), starting from the zero value. -/
def videoResponseFromJson (j : Json) : Option VideoResponse :=
  match j with
  | .obj fields => vrFields zeroVideoResponse fields
  | .null => some zeroVideoResponse
  | _ => none

/-- One key/value pair applied to a formats element being decoded. -/
def applyYTFormatField (f : YTFormat) (kv : String × Json) : Option YTFormat :=
  if kv.1 == "format_id" then (jSetStr kv.2 f.FormatID).map fun x => { f with FormatID := x }
  else if kv.1 == "ext" then (jSetStr kv.2 f.Ext).map fun x => { f with Ext := x }
  else if kv.1 == "format" then (jSetStr kv.2 f.Format).map fun x => { f with Format := x }
  else if kv.1 == "width" then (jSetInt kv.2 f.Width).map fun x => { f with Width := x }
  else if kv.1 == "height" then (jSetInt kv.2 f.Height).map fun x => { f with Height := x }
  else if kv.1 == "acodec" then (jSetStr kv.2 f.Acodec).map fun x => { f with Acodec := x }
  else if kv.1 == "vcodec" then (jSetStr kv.2 f.Vcodec).map fun x => { f with Vcodec := x }
  else if kv.1 == "fps" then (jSetInt kv.2 f.FPS).map fun x => { f with FPS := x }
  else if kv.1 == "filesize" then (jSetInt kv.2 f.Filesize).map fun x => { f with Filesize := x }
  else some f

/-- Sequential application of an object's key/value pairs to a formats
element being decoded. -/
def ytFormatFields (f : YTFormat) : List (String × Json) → Option YTFormat
  | [] => some f
  | kv :: rest =>
    match applyYTFormatField f kv with
    | none => none
    | some f2 => ytFormatFields f2 rest

/-- Go `json.Unmarshal` of one array element into the formats element
struct. -/
def ytFormatFromJson (j : Json) : Option YTFormat :=
  match j with
  | .obj fields => ytFormatFields zeroYTFormat fields
  | .null => some zeroYTFormat
  | _ => none

/-- Go `json.Unmarshal` of a JSON array into the formats slice. -/
def ytFormatListFromJson : List Json → Option (List YTFormat)
  | [] => some []
  | j :: rest =>
    match ytFormatFromJson j with
    | none => none
    | some f => (ytFormatListFromJson rest).map fun fs => f :: fs

/-- One key/value pair applied to a `YTDLPOutput` being decoded. -/
def applyYTField (y : YTDLPOutput) (kv : String × Json) : Option YTDLPOutput :=
  if kv.1 == "id" then (jSetStr kv.2 y.ID).map fun x => { y with ID := x }
  else if kv.1 == "title" then (jSetStr kv.2 y.Title).map fun x => { y with Title := x }
  else if kv.1 == "uploader" then (jSetStr kv.2 y.Uploader).map fun x => { y with Uploader := x }
  else if kv.1 == "thumbnail" then (jSetStr kv.2 y.Thumbnail).map fun x => { y with Thumbnail := x }
  else if kv.1 == "webpage_url" then (jSetStr kv.2 y.WebpageURL).map fun x => { y with WebpageURL := x }
  else if kv.1 == "formats" then
    match kv.2 with
    | .null => some y
    | .arr l => (ytFormatListFromJson l).map fun fs => { y with Formats := fs }
    | _ => none
  else some y

/-- Sequential application of an object's key/value pairs to a
`YTDLPOutput` being decoded. -/
def ytFields (y : YTDLPOutput) : List (String × Json) → Option YTDLPOutput
  | [] => some y
  | kv :: rest =>
    match applyYTField y kv with
    | none => none
    | some y2 => ytFields y2 rest

/-- Go `json.Unmarshal(output, &ytdlpData)` (src/main.go line 232),
starting from the zero value. -/
def ytdlpOutputFromJson (j : Json) : Option YTDLPOutput :=
  match j with
  | .obj fields => ytFields zeroYTDLPOutput fields
  | .null => some zeroYTDLPOutput
  | _ => none

/-! ## JSON text parser

The text layer of Go's `encoding/json` decoding: a recursive-descent
parser from the raw bytes (here, the characters of a `String`) to a
`Json` value.  Empty input and trailing data after the top-level value
are errors, exactly as in Go.  Model restrictions (documented, not
exercised by any claim): string escapes are limited to the simple
escapes (no `\u`), and numbers are limited to optionally signed
integers (a fraction or exponent makes the parse fail rather than
produce a float). -/

/-- The opening brace character. -/
def lbraceChar : Char := Char.ofNat 123

/-- The closing brace character. -/
def rbraceChar : Char := Char.ofNat 125

/-- Skips JSON whitespace. -/
def jSkipWs : List Char → List Char
  | c :: cs =>
    if c == ' ' || c == '\t' || c == '\n' || c == '\r' then jSkipWs cs
    else c :: cs
  | [] => []

/-- Parses the body of a JSON string after the opening quote, returning
the decoded string and the input after the closing quote.  Unterminated
strings, raw control characters and unsupported escapes fail. -/
def jStrBody : List Char → List Char → Option (String × List Char)
  | [], _ => none
  | '"' :: rest, acc => some (String.mk acc.reverse, rest)
  | '\\' :: e :: rest, acc =>
    if e == '"' then jStrBody rest ('"' :: acc)
    else if e == '\\' then jStrBody rest ('\\' :: acc)
    else if e == '/' then jStrBody rest ('/' :: acc)
    else if e == 'n' then jStrBody rest ('\n' :: acc)
    else if e == 't' then jStrBody rest ('\t' :: acc)
    else if e == 'r' then jStrBody rest ('\r' :: acc)
    else if e == 'b' then jStrBody rest (Char.ofNat 8 :: acc)
    else if e == 'f' then jStrBody rest (Char.ofNat 12 :: acc)
    else none
  | c :: rest, acc =>
    if c.toNat < 32 then none else jStrBody rest (c :: acc)

/-- Takes the leading run of decimal digits. -/
def jDigits : List Char → List Char × List Char
  | [] => ([], [])
  | c :: cs =>
    if decide ('0' ≤ c) && decide (c ≤ '9') then
      let (ds, rest) := jDigits cs
      (c :: ds, rest)
    else ([], c :: cs)

/-- The natural number denoted by a run of decimal digits. -/
def natOfDigits (ds : List Char) : Nat :=
  ds.foldl (fun n c => n * 10 + (c.toNat - 48)) 0

/-- After an integer literal, a fraction or exponent marker makes the
parse fail (the model's integer-only restriction). -/
def jNumBreak : List Char → Bool
  | [] => true
  | c :: _ => !(c == '.' || c == 'e' || c == 'E')

/-- Parses an optionally signed integer literal. -/
def jParseNumber : List Char → Option (Int × List Char)
  | '-' :: cs =>
    match jDigits cs with
    | ([], _) => none
    | (ds, rest) =>
      if jNumBreak rest then some (-(natOfDigits ds : Int), rest) else none
  | cs =>
    match jDigits cs with
    | ([], _) => none
    | (ds, rest) =>
      if jNumBreak rest then some ((natOfDigits ds : Int), rest) else none

mutual

/-- Parses one JSON value (fuel-bounded recursion). -/
def jParseVal : Nat → List Char → Option (Json × List Char)
  | 0, _ => none
  | fuel + 1, cs =>
    match jSkipWs cs with
    | [] => none
    | c :: rest =>
      if c == '"' then
        match jStrBody rest [] with
        | some (s, r) => some (.str s, r)
        | none => none
      else if c == lbraceChar then jParseObjItems fuel rest [] true
      else if c == '[' then jParseArrItems fuel rest [] true
      else if c == 'n' then
        match rest with
        | 'u' :: 'l' :: 'l' :: r => some (.null, r)
        | _ => none
      else if c == 't' then
        match rest with
        | 'r' :: 'u' :: 'e' :: r => some (.bool true, r)
        | _ => none
      else if c == 'f' then
        match rest with
        | 'a' :: 'l' :: 's' :: 'e' :: r => some (.bool false, r)
        | _ => none
      else
        match jParseNumber (c :: rest) with
        | some (n, r) => some (.num n, r)
        | none => none

/-- Parses the elements of a JSON array after the opening bracket
(`first` marks the position right after the bracket, where a closing
bracket denotes the empty array). -/
def jParseArrItems : Nat → List Char → List Json → Bool → Option (Json × List Char)
  | 0, _, _, _ => none
  | fuel + 1, cs, acc, first =>
    match jSkipWs cs with
    | ']' :: r => if first then some (.arr acc.reverse, r) else none
    | other =>
      match jParseVal fuel other with
      | none => none
      | some (v, r1) =>
        match jSkipWs r1 with
        | ',' :: r2 => jParseArrItems fuel r2 (v :: acc) false
        | ']' :: r2 => some (.arr (v :: acc).reverse, r2)
        | _ => none

/-- Parses the members of a JSON object after the opening brace
(`first` marks the position right after the brace, where a closing
brace denotes the empty object). -/
def jParseObjItems : Nat → List Char → List (String × Json) → Bool → Option (Json × List Char)
  | 0, _, _, _ => none
  | fuel + 1, cs, acc, first =>
    match jSkipWs cs with
    | [] => none
    | c :: rest =>
      if c == rbraceChar then
        if first then some (.obj acc.reverse, rest) else none
      else if c == '"' then
        match jStrBody rest [] with
        | none => none
        | some (k, r1) =>
          match jSkipWs r1 with
          | ':' :: r2 =>
            match jParseVal fuel r2 with
            | none => none
            | some (v, r3) =>
              match jSkipWs r3 with
              | ',' :: r4 => jParseObjItems fuel r4 ((k, v) :: acc) false
              | c2 :: r4 =>
                if c2 == rbraceChar then some (.obj ((k, v) :: acc).reverse, r4)
                else none
              | [] => none
          | _ => none
      else none

end

/-- The text layer of Go `json.Unmarshal`: parse one JSON value and
reject trailing non-whitespace.  Empty input fails (Go: "unexpected end
of JSON input").  The fuel bounds the recursion depth and is ample for
any input of this length. -/
def jsonDecode (s : String) : Option Json :=
  match jParseVal (2 * s.data.length + 2) s.data with
  | some (j, rest) => if (jSkipWs rest).isEmpty then some j else none
  | none => none

/-! ## Model of Go net/url.ParseRequestURI (src/main.go line 212)

A faithful model of `net/url.parse(rawURL, viaRequest := true)` for the
fields the program reads (`Scheme` and `Host`) and the error behaviour:
the control-byte check, the empty-URL check, the `*` special case,
`getScheme`, the query split, the opaque/invalid handling of a rest
that does not start with a slash, the authority split with the
userinfo character check, and the port-syntax and bracket checks of
`parseHost`.  Model restrictions (documented, not exercised by any
claim): percent-escape validation and decoding (in userinfo, host and
path) and the IPv6 zone handling are not modelled, and `ForceQuery` is
not tracked (its rest/query split coincides with the plain split for
the tracked fields). -/

/-- The fields of Go `url.URL` that the model tracks. -/
structure GoURL where
  scheme : String
  opaquePart : String
  host : String
  path : String
  rawQuery : String
deriving DecidableEq, Repr

/-- ASCII letter. -/
def isAsciiAlpha (c : Char) : Bool :=
  (decide ('a' ≤ c) && decide (c ≤ 'z')) || (decide ('A' ≤ c) && decide (c ≤ 'Z'))

/-- ASCII digit. -/
def isAsciiDigit (c : Char) : Bool :=
  decide ('0' ≤ c) && decide (c ≤ '9')

/-- ASCII lower-casing of one character. -/
def toLowerAscii (c : Char) : Char :=
  if decide ('A' ≤ c) && decide (c ≤ 'Z') then Char.ofNat (c.toNat + 32) else c

/-- Go `stringContainsCTLByte`: any byte below 0x20 or equal to 0x7f
(non-ASCII characters have no such bytes). -/
def containsCTLByte (s : String) : Bool :=
  s.data.any fun c => decide (c.toNat < 32) || c.toNat == 127

/-- The loop of Go `getScheme`: letters continue; digits and `+` `-` `.`
continue unless first (then the whole input has no scheme); `:` ends the
scheme (an error when first); any other character means no scheme. -/
def getSchemeAux (orig : List Char) : List Char → List Char → Bool → Option (String × List Char)
  | [], _, _ => some ("", orig)
  | c :: cs, acc, isFirst =>
    if isAsciiAlpha c then getSchemeAux orig cs (c :: acc) false
    else if isAsciiDigit c || c == '+' || c == '-' || c == '.' then
      if isFirst then some ("", orig) else getSchemeAux orig cs (c :: acc) false
    else if c == ':' then
      if isFirst then none else some (String.mk acc.reverse, cs)
    else some ("", orig)

/-- Go `getScheme`: `none` is the "missing protocol scheme" error. -/
def getScheme (s : List Char) : Option (String × List Char) :=
  getSchemeAux s s [] true

/-- Cut at the first occurrence of a separator; the separator itself is
dropped and an absent separator leaves the second component empty. -/
def cutAtFirst (sep : Char) : List Char → List Char × List Char
  | [] => ([], [])
  | c :: cs =>
    if c == sep then ([], cs)
    else
      let (a, b) := cutAtFirst sep cs
      (c :: a, b)

/-- Split around the last occurrence of a separator, or `none` when the
separator does not occur. -/
def splitAtLast (sep : Char) : List Char → Option (List Char × List Char)
  | [] => none
  | c :: rest =>
    match splitAtLast sep rest with
    | some (a, b) => some (c :: a, b)
    | none => if c == sep then some ([], rest) else none

/-- The prefix up to the first slash and the rest from that slash on
(Go's authority/path split). -/
def spanUntilSlash : List Char → List Char × List Char
  | [] => ([], [])
  | c :: cs =>
    if c == '/' then ([], c :: cs)
    else
      let (a, b) := spanUntilSlash cs
      (c :: a, b)

/-- Go `validOptionalPort`: empty, or a colon followed by digits only. -/
def validOptionalPort : List Char → Bool
  | [] => true
  | ':' :: rest => rest.all isAsciiDigit
  | _ => false

/-- One character allowed by Go `validUserinfo`. -/
def validUserinfoChar (c : Char) : Bool :=
  isAsciiAlpha c || isAsciiDigit c ||
  c == '-' || c == '.' || c == '_' || c == ':' || c == '~' || c == '!' ||
  c == '$' || c == '&' || c == Char.ofNat 39 || c == '(' || c == ')' ||
  c == '*' || c == '+' || c == ',' || c == ';' || c == '=' || c == '%' ||
  c == '@'

/-- Go `validUserinfo`. -/
def validUserinfo (s : List Char) : Bool :=
  s.all validUserinfoChar

/-- Go `parseHost` with percent-escape decoding not modelled: a
bracketed host needs a closing bracket followed by an optional port,
and otherwise the suffix from the last colon must be an optional port. -/
def parseHostModel (h : List Char) : Option String :=
  match h with
  | '[' :: _ =>
    match splitAtLast ']' h with
    | none => none
    | some (_, afterBracket) =>
      if validOptionalPort afterBracket then some (String.mk h) else none
  | _ =>
    match splitAtLast ':' h with
    | none => some (String.mk h)
    | some (_, port) =>
      if validOptionalPort (':' :: port) then some (String.mk h) else none

/-- Go `parseAuthority` restricted to the host result: the host part is
everything after the last `@` (the userinfo before it must pass
`validUserinfo`), or the whole authority when there is no `@`. -/
def parseAuthority (authority : List Char) : Option String :=
  match splitAtLast '@' authority with
  | none => parseHostModel authority
  | some (userinfo, hostPart) =>
    match parseHostModel hostPart with
    | none => none
    | some host => if validUserinfo userinfo then some host else none

/-- Model of Go `url.ParseRequestURI`; `none` is a non-nil error. -/
def parseRequestURI (rawURL : String) : Option GoURL :=
  if containsCTLByte rawURL then none
  else if rawURL == "" then none
  else if rawURL == "*" then
    some { scheme := "", opaquePart := "", host := "", path := "*", rawQuery := "" }
  else
    match getScheme rawURL.data with
    | none => none
    | some (schemeRaw, afterScheme) =>
      let scheme := String.mk (schemeRaw.data.map toLowerAscii)
      let (rest, rawQuery) := cutAtFirst '?' afterScheme
      match rest with
      | '/' :: _ =>
        if scheme != "" && rest.take 2 == ['/', '/'] then
          let (authority, pathChars) := spanUntilSlash (rest.drop 2)
          match parseAuthority authority with
          | none => none
          | some host =>
            some { scheme := scheme, opaquePart := "", host := host,
                   path := String.mk pathChars, rawQuery := String.mk rawQuery }
        else
          some { scheme := scheme, opaquePart := "", host := "",
                 path := String.mk rest, rawQuery := String.mk rawQuery }
      | _ =>
        if scheme != "" then
          some { scheme := scheme, opaquePart := String.mk rest, host := "",
                 path := "", rawQuery := String.mk rawQuery }
        else none

/-! ## The metadata fetch pipeline (src/main.go lines 211-269) -/

/-- The branch a non-nil error of `fetchVideoMetaData` originates from.
The Go code returns the raw error of each branch; the spec's error
taxonomy maps onto the branches: `urlParseError` is the spec's
`InvalidURL` (the error of `url.ParseRequestURI`), `execError` is the
spec's `ExtractionFailed` (the error of `cmd.Output()`: failure to
start or a non-zero exit), and `unmarshalError` is the spec's
`MalformedMetadata` (the error of `json.Unmarshal`). -/
inductive FetchErr where
  | urlParseError : FetchErr
  | execError : FetchErr
  | unmarshalError : FetchErr
deriving DecidableEq, Repr

/-- The observable side effects of one `fetchVideoMetaData` call, in
order: a Redis GET, a yt-dlp invocation with its argument list, and a
Redis SET with its key, payload and expiry in nanoseconds. -/
inductive Effect where
  | cacheGet (key : String) : Effect
  | toolInvoke (args : List String) : Effect
  | cacheSet (key : String) (payload : Json) (ttlNs : Nat) : Effect
deriving Repr

/-- The Go pair `(*VideoResponse, error)` returned by
`fetchVideoMetaData`, together with the trace of side effects.  Note
that `resp := none, err := none` is representable: it is Go's
`return nil, err` with a nil `err`. -/
structure FetchOutcome where
  resp : Option VideoResponse
  err : Option FetchErr
  effects : List Effect
deriving Repr

/-- The external world of one fetch: `cacheGet` is the Redis GET result
for a key (`none` is a miss or a Redis error), `tool` is the result of
`exec.Command("yt-dlp", "-j", url).Output()` (`none` when the process
fails to start or exits non-zero, otherwise its standard output), and
`setResult` tells whether a Redis SET would succeed — the code never
consults it (src/main.go line 267 discards the SET result). -/
structure FetchEnv where
  cacheGet : String → Option String
  tool : String → Option String
  setResult : String → Json → Bool

/-- `5 * time.Minute` in nanoseconds (Go `time.Duration` units). -/
def cacheTTLns : Nat := 5 * 60 * 1000000000

/-- src/main.go lines 225-268: the part of `fetchVideoMetaData` after
the cache lookup misses or its payload fails to deserialize: invoke
yt-dlp, decode its output, normalize, and write the cache best-effort. -/
def fetchFresh (env : FetchEnv) (videoURL cacheKey : String) : FetchOutcome :=
  match env.tool videoURL with
  | none =>
    { resp := none, err := some .execError,
      effects := [.cacheGet cacheKey, .toolInvoke ["-j", videoURL]] }
  | some output =>
    match (jsonDecode output).bind ytdlpOutputFromJson with
    | none =>
      { resp := none, err := some .unmarshalError,
        effects := [.cacheGet cacheKey, .toolInvoke ["-j", videoURL]] }
    | some ytdlpData =>
      let videoResp := buildVideoResponse ytdlpData
      { resp := some videoResp, err := none,
        effects := [.cacheGet cacheKey, .toolInvoke ["-j", videoURL],
                    .cacheSet cacheKey (marshalVideoResponse videoResp) cacheTTLns] }

/-- src/main.go lines 211-269.  The guard mirrors line 213 exactly:
when `url.ParseRequestURI` fails the non-nil parse error is returned,
but when it succeeds with an empty scheme or host the same `return nil,
err` returns a nil error (`resp := none, err := none`).  The cache key
is `"video_meta:" ++ videoURL` (line 217); a hit whose payload
deserializes is returned with no further effect (lines 218-223); any
other case falls through to `fetchFresh`. -/
def fetchVideoMetaData (env : FetchEnv) (videoURL : String) : FetchOutcome :=
  match parseRequestURI videoURL with
  | none => { resp := none, err := some .urlParseError, effects := [] }
  | some parsedURL =>
    if parsedURL.scheme == "" || parsedURL.host == "" then
      { resp := none, err := none, effects := [] }
    else
      let cacheKey := "video_meta:" ++ videoURL
      match env.cacheGet cacheKey with
      | some cacheData =>
        match (jsonDecode cacheData).bind videoResponseFromJson with
        | some v => { resp := some v, err := none, effects := [.cacheGet cacheKey] }
        | none => fetchFresh env videoURL cacheKey
      | none => fetchFresh env videoURL cacheKey

/-! ## The /download handler (src/main.go lines 167-201) -/

/-- What the /download handler does with a request, up to the point
where the external tool is (or is not) started: the two early-exit
error responses, or a yt-dlp invocation with the response filename and
the full argument list of src/main.go lines 186-194.  Whether that
invocation later succeeds or fails is outside the handler's control
flow modelled here. -/
inductive DownloadResult where
  | errMissingURL : DownloadResult
  | errInvalidFormat : DownloadResult
  | run (fileName : String) (args : List String) : DownloadResult
deriving DecidableEq, Repr

/-- src/main.go lines 167-194: missing-URL check, `isValidFormatID`
check, filename defaulting, then the yt-dlp invocation. -/
def downloadHandler (pageURL formatID fileName : String) : DownloadResult :=
  if pageURL == "" then .errMissingURL
  else if !isValidFormatID formatID then .errInvalidFormat
  else
    let fn := if fileName == "" then "video.mp4" else fileName
    .run fn ["-f", formatID, "--merge-output-format", "mp4",
             "--prefer-ffmpeg", "--no-mtime", "-o", "-", pageURL]

/-! ## The /submit handler's first-media access (src/main.go line 124) -/

/-- The expression `videoData.Medias[0].FormatID` of src/main.go line
124, rendered total: `none` means the index access is out of bounds
(in Go, a runtime panic).  The handler performs this access
unconditionally on every successful fetch result. -/
def submitSelectedFormatID (videoData : VideoResponse) : Option String :=
  (videoData.Medias[0]?).map MediaEntry.FormatID

/-! ## Concrete instances used by the witnesses -/

/-- A well-formed page URL used by the concrete scenarios. -/
def demoURL : String := "https://example.com/v"

/-- What `parseRequestURI` yields on `demoURL`. -/
def demoParsedURL : GoURL :=
  { scheme := "https", opaquePart := "", host := "example.com",
    path := "/v", rawQuery := "" }

/-- A serialized `VideoResponse` as a cache payload. -/
def demoCachePayload : String :=
  "\x7b\"url\":\"https://example.com/v\",\"id\":\"abc\",\"title\":\"Demo\",\"medias\":[\x7b\"format_id\":\"18\",\"quality\":\"360p\",\"width\":640,\"height\":360,\"ext\":\"mp4\"\x7d],\"error\":false\x7d"

/-- The `VideoResponse` that `demoCachePayload` deserializes to. -/
def demoCachedVR : VideoResponse :=
  { URL := "https://example.com/v", Source := "", ID := "abc", Author := "",
    Title := "Demo", Thumbnail := "",
    Medias := [{ FormatID := "18", Quality := "360p", Width := 640,
                 Height := 360, Ext := "mp4" }],
    Error := false }

/-- An environment whose cache holds `demoCachePayload` under the key
for `demoURL`, and whose external tool always fails. -/
def envCacheHit : FetchEnv :=
  { cacheGet := fun k =>
      if k == "video_meta:https://example.com/v" then some demoCachePayload
      else none,
    tool := fun _ => none,
    setResult := fun _ _ => true }

/-- An environment with an empty cache and a failing external tool. -/
def envCacheMiss : FetchEnv :=
  { cacheGet := fun _ => none,
    tool := fun _ => none,
    setResult := fun _ _ => true }

/-- An environment with an empty cache whose external tool exits zero
producing no output at all. -/
def envEmptyOutput : FetchEnv :=
  { cacheGet := fun _ => none,
    tool := fun _ => some "",
    setResult := fun _ _ => true }

/-- A well-formed yt-dlp metadata document whose only format is a
storyboard-like entry with neither an audio nor a video codec. -/
def storyboardPayload : String :=
  "\x7b\"formats\":[\x7b\"format_id\":\"sb0\",\"vcodec\":\"none\",\"acodec\":\"none\"\x7d]\x7d"

/-- The one format descriptor of `storyboardPayload`. -/
def storyboardFormat : YTFormat :=
  { FormatID := "sb0", Ext := "", Format := "", Width := 0, Height := 0,
    Acodec := "none", Vcodec := "none", FPS := 0, Filesize := 0 }

/-- An environment with an empty cache whose external tool reports only
the storyboard format. -/
def envStoryboardOnly : FetchEnv :=
  { cacheGet := fun _ => none,
    tool := fun _ => some storyboardPayload,
    setResult := fun _ _ => true }

/-- `envStoryboardOnly` with a failing cache store, to exercise the
independence of the fetch result from the SET outcome. -/
def envStoryboardOnlyFailingSet : FetchEnv :=
  { cacheGet := fun _ => none,
    tool := fun _ => some storyboardPayload,
    setResult := fun _ _ => false }

/-- A format descriptor with both streams present. -/
def demoGoodFormat : YTFormat :=
  { FormatID := "18", Ext := "mp4", Format := "360p", Width := 640,
    Height := 360, Acodec := "aac", Vcodec := "h264", FPS := 0,
    Filesize := 0 }

/-- A raw metadata document carrying one kept and one dropped format. -/
def demoYT : YTDLPOutput :=
  { ID := "abc", Title := "Demo", Uploader := "Me", Thumbnail := "",
    WebpageURL := "https://example.com/v",
    Formats := [demoGoodFormat, storyboardFormat] }

/-! ## Helper lemmas -/

/-- Swapping the first two disjuncts of a boolean disjunction. -/
theorem bool_or_swap_first (a b c : Bool) : (a || (b || c)) = (b || (a || c)) := by
  cases a <;> cases b <;> rfl

/-- The source's character class and the spec's character class agree
(they list the same ranges in a different order). -/
theorem format_char_eq (c : Char) : goFormatIDChar c = specFormatChar c := by
  unfold goFormatIDChar specFormatChar
  exact bool_or_swap_first _ _ _

/-- Lifting `format_char_eq` to a whole character list. -/
theorem all_format_char_eq (l : List Char) :
    l.all goFormatIDChar = l.all specFormatChar := by
  induction l with
  | nil => rfl
  | cons c cs ih => simp [List.all_cons, format_char_eq c, ih]

/-- String inequality with the empty string, as a fact about the
character list. -/
theorem decide_ne_empty_string (s : String) :
    (decide (s ≠ "") : Bool) = !s.data.isEmpty := by
  rcases s with ⟨d⟩
  cases d with
  | nil => rfl
  | cons c cs => rfl

/-- The source's `isValidFormatID` agrees with the spec's pattern
`^[A-Za-z0-9+_-]+$` on every string (the source's extra emptiness check
is subsumed by the `+` repetition). -/
theorem isValidFormatID_eq_spec (s : String) :
    isValidFormatID s = matchesSpecPattern s := by
  unfold isValidFormatID matchesSpecPattern formatIDRegexMatchString
  rw [decide_ne_empty_string, all_format_char_eq]
  cases he : s.data.isEmpty <;> simp

/-- The normalization loop is the spec's order-preserving filter-map. -/
theorem buildMedias_eq_filter_map (fs : List YTFormat) :
    buildMedias fs = (fs.filter specKeep).map toMediaEntry := by
  induction fs with
  | nil => rfl
  | cons f rest ih =>
    cases h1 : (f.FormatID == "") <;>
      cases h2 : (f.Vcodec == "none" && f.Acodec == "none") <;>
        simp [buildMedias, specKeep, List.filter_cons, bne, h1, h2, ih]

/-- Every entry of a normalized media list has a non-empty format id
and arises from a raw entry with at least one codec present. -/
theorem mem_buildMedias {fs : List YTFormat} {m : MediaEntry}
    (hm : m ∈ buildMedias fs) :
    m.FormatID ≠ "" ∧
    ∃ f ∈ fs, toMediaEntry f = m ∧ (f.Vcodec ≠ "none" ∨ f.Acodec ≠ "none") := by
  rw [buildMedias_eq_filter_map] at hm
  obtain ⟨f, hf, rfl⟩ := List.mem_map.mp hm
  obtain ⟨hmem, hkeep⟩ := List.mem_filter.mp hf
  unfold specKeep at hkeep
  rw [Bool.and_eq_true] at hkeep
  obtain ⟨hne, hcod⟩ := hkeep
  refine ⟨by simpa [toMediaEntry] using hne, f, hmem, rfl, ?_⟩
  rw [Bool.not_eq_true'] at hcod
  rcases Bool.and_eq_false_iff.mp hcod with h | h
  · exact Or.inl (by simpa using h)
  · exact Or.inr (by simpa using h)

/-- The validation guard of src/main.go line 213 is false for a URL
with non-empty scheme and host. -/
theorem scheme_host_guard_false {u : GoURL} (hs : u.scheme ≠ "") (hh : u.host ≠ "") :
    (u.scheme == "" || u.host == "") = false := by
  simp [hs, hh]

/-- The cache-hit path of the fetch, in full generality. -/
theorem fetch_cache_hit (env : FetchEnv) (url : String) (u : GoURL)
    (payload : String) (v : VideoResponse)
    (hp : parseRequestURI url = some u) (hs : u.scheme ≠ "") (hh : u.host ≠ "")
    (hhit : env.cacheGet ("video_meta:" ++ url) = some payload)
    (hdec : (jsonDecode payload).bind videoResponseFromJson = some v) :
    fetchVideoMetaData env url =
      { resp := some v, err := none,
        effects := [.cacheGet ("video_meta:" ++ url)] } := by
  simp [fetchVideoMetaData, hp, scheme_host_guard_false hs hh, hhit, hdec]

/-- The tool-failure path of the fetch, in full generality. -/
theorem fetch_tool_error (env : FetchEnv) (url : String) (u : GoURL)
    (hp : parseRequestURI url = some u) (hs : u.scheme ≠ "") (hh : u.host ≠ "")
    (hmiss : env.cacheGet ("video_meta:" ++ url) = none)
    (htool : env.tool url = none) :
    fetchVideoMetaData env url =
      { resp := none, err := some .execError,
        effects := [.cacheGet ("video_meta:" ++ url), .toolInvoke ["-j", url]] } := by
  simp [fetchVideoMetaData, fetchFresh, hp, scheme_host_guard_false hs hh, hmiss, htool]

/-- The fresh-success path of the fetch, in full generality, together
with the independence of the whole fetch from the SET outcome. -/
theorem fetch_fresh_success (env env2 : FetchEnv) (url : String) (u : GoURL)
    (out : String) (yt : YTDLPOutput)
    (hp : parseRequestURI url = some u) (hs : u.scheme ≠ "") (hh : u.host ≠ "")
    (hmiss : env.cacheGet ("video_meta:" ++ url) = none)
    (htool : env.tool url = some out)
    (hparse : (jsonDecode out).bind ytdlpOutputFromJson = some yt)
    (hg : env2.cacheGet = env.cacheGet) (ht : env2.tool = env.tool) :
    fetchVideoMetaData env url =
      { resp := some (buildVideoResponse yt), err := none,
        effects := [.cacheGet ("video_meta:" ++ url), .toolInvoke ["-j", url],
                    .cacheSet ("video_meta:" ++ url)
                      (marshalVideoResponse (buildVideoResponse yt)) cacheTTLns] } ∧
    fetchVideoMetaData env2 url = fetchVideoMetaData env url := by
  constructor
  · simp [fetchVideoMetaData, fetchFresh, hp, scheme_host_guard_false hs hh,
          hmiss, htool, hparse]
  · simp only [fetchVideoMetaData, fetchFresh, hg, ht]

/-- Round-trip of one media entry through its JSON encoding. -/
theorem media_entry_roundtrip (m : MediaEntry) :
    mediaEntryFromJson (marshalMediaEntry m) = some m := rfl

/-- Round-trip of a media list through its JSON encoding. -/
theorem media_list_roundtrip (ms : List MediaEntry) :
    mediaListFromJson (ms.map marshalMediaEntry) = some ms := by
  induction ms with
  | nil => rfl
  | cons m rest ih =>
    simp [List.map_cons, mediaListFromJson, media_entry_roundtrip m, ih]

/-- Round-trip of a `VideoResponse` through its JSON encoding. -/
theorem vr_roundtrip (v : VideoResponse) :
    videoResponseFromJson (marshalVideoResponse v) = some v := by
  obtain ⟨u, s, i, a, t, th, ms, e⟩ := v
  simp [videoResponseFromJson, marshalVideoResponse, vrFields, applyVRField,
        jSetStr, jSetBool, media_list_roundtrip]

/-! ## Claim theorems -/

/-- C1: for a non-empty page URL and any format id that fails the
pattern `^[A-Za-z0-9+_-]+$`, the /download handler answers the
invalid-format error, so the external tool is never invoked (the only
`DownloadResult` that starts the tool is `run`, and the pattern check
precedes the invocation in the handler's control flow). -/
theorem download_rejects_bad_format (pageURL formatID fileName : String)
    (hurl : pageURL ≠ "") (hfmt : matchesSpecPattern formatID = false) :
    downloadHandler pageURL formatID fileName = .errInvalidFormat := by
  have h2 : isValidFormatID formatID = false := by
    rw [isValidFormatID_eq_spec, hfmt]
  simp [downloadHandler, hurl, h2]

/-- Witness for C1 at the spec's scenario input `"18; evil"`. -/
theorem download_rejects_bad_format_w :
    ("https://example.com/v" : String) ≠ "" ∧
    matchesSpecPattern "18; evil" = false ∧
    downloadHandler "https://example.com/v" "18; evil" "clip.mp4" = .errInvalidFormat :=
  ⟨by decide, by decide, download_rejects_bad_format _ _ _ (by decide) (by decide)⟩

/-- C2: `isValidFormatID` agrees with the spec's pattern
`^[A-Za-z0-9+_-]+$` on every string: it is true exactly on the
non-empty strings all of whose characters lie in the class, hence false
on the empty string and on every string containing a character outside
the class. -/
theorem isValidFormatID_iff_spec_pattern (s : String) :
    isValidFormatID s = matchesSpecPattern s :=
  isValidFormatID_eq_spec s

/-- C3: normalization is exactly the order-preserving filter-map of the
raw format list: entries with an empty `format_id` and entries whose
`vcodec` and `acodec` are both `"none"` are excluded, every other entry
is included, converted, in the reported order. -/
theorem buildMedias_is_ordered_filter (fs : List YTFormat) :
    buildMedias fs = (fs.filter specKeep).map toMediaEntry :=
  buildMedias_eq_filter_map fs

/-- C4: on a valid page URL whose cache lookup under the key
`"video_meta:" ++ url` hits with a payload that deserializes into a
`VideoResponse`, the fetch returns that value with the cache GET as its
only side effect — no tool invocation, no cache write, no TTL refresh. -/
theorem fetch_cache_hit_immediate (env : FetchEnv) (url : String) (u : GoURL)
    (payload : String) (v : VideoResponse)
    (hp : parseRequestURI url = some u) (hs : u.scheme ≠ "") (hh : u.host ≠ "")
    (hhit : env.cacheGet ("video_meta:" ++ url) = some payload)
    (hdec : (jsonDecode payload).bind videoResponseFromJson = some v) :
    fetchVideoMetaData env url =
      { resp := some v, err := none,
        effects := [.cacheGet ("video_meta:" ++ url)] } :=
  fetch_cache_hit env url u payload v hp hs hh hhit hdec

set_option maxRecDepth 100000 in
/-- Witness for C4 at a concrete cached payload. -/
theorem fetch_cache_hit_immediate_w :
    parseRequestURI demoURL = some demoParsedURL ∧
    demoParsedURL.scheme ≠ "" ∧ demoParsedURL.host ≠ "" ∧
    envCacheHit.cacheGet ("video_meta:" ++ demoURL) = some demoCachePayload ∧
    (jsonDecode demoCachePayload).bind videoResponseFromJson = some demoCachedVR ∧
    fetchVideoMetaData envCacheHit demoURL =
      { resp := some demoCachedVR, err := none,
        effects := [.cacheGet ("video_meta:" ++ demoURL)] } :=
  ⟨rfl, by decide, by decide, rfl, rfl,
   fetch_cache_hit_immediate envCacheHit demoURL demoParsedURL demoCachePayload
     demoCachedVR rfl (by decide) (by decide) rfl rfl⟩

/-- C5 (code-bug exhibit): `"mailto:user@example.com"` parses with an
empty host, yet the fetch returns neither a value nor an error — Go's
`return nil, err` at src/main.go line 214 returns a nil error when
`ParseRequestURI` succeeded but the scheme or host is empty, so the
caller takes the success path with a nil pointer.  For contrast, an
input on which the parse itself fails does surface the parse error. -/
theorem invalid_url_nil_error_bug :
    parseRequestURI "mailto:user@example.com" =
      some { scheme := "mailto", opaquePart := "user@example.com", host := "",
             path := "", rawQuery := "" } ∧
    fetchVideoMetaData envCacheMiss "mailto:user@example.com" =
      { resp := none, err := none, effects := [] } ∧
    fetchVideoMetaData envCacheMiss "not-a-url" =
      { resp := none, err := some .urlParseError, effects := [] } :=
  ⟨rfl, rfl, rfl⟩

/-- C6 counterexample: on a cache miss with the external tool exiting
zero and producing no output, the fetch fails with the JSON-unmarshal
error (the spec's `MalformedMetadata`), not the exec-branch error (the
spec's `ExtractionFailed`) as the claim states: empty output passes the
`cmd.Output()` error check and dies in `json.Unmarshal`. -/
theorem empty_output_is_unmarshal_error :
    envEmptyOutput.tool demoURL = some "" ∧
    (fetchVideoMetaData envEmptyOutput demoURL).err = some FetchErr.unmarshalError ∧
    (fetchVideoMetaData envEmptyOutput demoURL).err ≠ some FetchErr.execError :=
  ⟨rfl, rfl, by decide⟩

/-- C6 as amended: on a cache miss, when the external tool fails to
start or exits non-zero (a non-nil `cmd.Output()` error), the fetch
fails with the exec-branch error, the spec's `ExtractionFailed`; empty
output is instead a `MalformedMetadata` parse failure. -/
theorem tool_failure_is_exec_error (env : FetchEnv) (url : String) (u : GoURL)
    (hp : parseRequestURI url = some u) (hs : u.scheme ≠ "") (hh : u.host ≠ "")
    (hmiss : env.cacheGet ("video_meta:" ++ url) = none)
    (htool : env.tool url = none) :
    fetchVideoMetaData env url =
      { resp := none, err := some .execError,
        effects := [.cacheGet ("video_meta:" ++ url), .toolInvoke ["-j", url]] } :=
  fetch_tool_error env url u hp hs hh hmiss htool

/-- Witness for the amended C6 at a concrete failing tool. -/
theorem tool_failure_is_exec_error_w :
    parseRequestURI demoURL = some demoParsedURL ∧
    demoParsedURL.scheme ≠ "" ∧ demoParsedURL.host ≠ "" ∧
    envCacheMiss.cacheGet ("video_meta:" ++ demoURL) = none ∧
    envCacheMiss.tool demoURL = none ∧
    fetchVideoMetaData envCacheMiss demoURL =
      { resp := none, err := some .execError,
        effects := [.cacheGet ("video_meta:" ++ demoURL),
                    .toolInvoke ["-j", demoURL]] } :=
  ⟨rfl, by decide, by decide, rfl, rfl,
   tool_failure_is_exec_error envCacheMiss demoURL demoParsedURL rfl
     (by decide) (by decide) rfl rfl⟩

/-- C7: every media entry of a freshly normalized `VideoResponse` has a
non-empty format id and stems from a raw format with at least one of
the two codecs present (no entry without a decodable stream appears). -/
theorem built_media_has_id_and_codec (y : YTDLPOutput) (m : MediaEntry)
    (hm : m ∈ (buildVideoResponse y).Medias) :
    m.FormatID ≠ "" ∧
    ∃ f ∈ y.Formats, toMediaEntry f = m ∧
      (f.Vcodec ≠ "none" ∨ f.Acodec ≠ "none") :=
  mem_buildMedias hm

/-- Witness for C7 at a concrete raw format list. -/
theorem built_media_has_id_and_codec_w :
    toMediaEntry demoGoodFormat ∈ (buildVideoResponse demoYT).Medias ∧
    (toMediaEntry demoGoodFormat).FormatID ≠ "" ∧
    (∃ f ∈ demoYT.Formats, toMediaEntry f = toMediaEntry demoGoodFormat ∧
      (f.Vcodec ≠ "none" ∨ f.Acodec ≠ "none")) :=
  ⟨by decide,
   built_media_has_id_and_codec demoYT (toMediaEntry demoGoodFormat) (by decide)⟩

/-- C8: a successful fresh fetch ends with a cache SET of the
serialized normalized value under `"video_meta:" ++ url` with the fixed
five-minute expiry, and the whole fetch outcome is unchanged under any
change of the SET result (the code discards it), so a cache-write
failure cannot fail the fetch. -/
theorem fresh_fetch_writes_cache_best_effort (env env2 : FetchEnv) (url : String)
    (u : GoURL) (out : String) (yt : YTDLPOutput)
    (hp : parseRequestURI url = some u) (hs : u.scheme ≠ "") (hh : u.host ≠ "")
    (hmiss : env.cacheGet ("video_meta:" ++ url) = none)
    (htool : env.tool url = some out)
    (hparse : (jsonDecode out).bind ytdlpOutputFromJson = some yt)
    (hg : env2.cacheGet = env.cacheGet) (ht : env2.tool = env.tool) :
    fetchVideoMetaData env url =
      { resp := some (buildVideoResponse yt), err := none,
        effects := [.cacheGet ("video_meta:" ++ url), .toolInvoke ["-j", url],
                    .cacheSet ("video_meta:" ++ url)
                      (marshalVideoResponse (buildVideoResponse yt)) cacheTTLns] } ∧
    fetchVideoMetaData env2 url = fetchVideoMetaData env url :=
  fetch_fresh_success env env2 url u out yt hp hs hh hmiss htool hparse hg ht

set_option maxRecDepth 100000 in
/-- Witness for C8 at a concrete fresh fetch, with a second environment
whose cache store refuses every SET. -/
theorem fresh_fetch_writes_cache_best_effort_w :
    parseRequestURI demoURL = some demoParsedURL ∧
    demoParsedURL.scheme ≠ "" ∧ demoParsedURL.host ≠ "" ∧
    envStoryboardOnly.cacheGet ("video_meta:" ++ demoURL) = none ∧
    envStoryboardOnly.tool demoURL = some storyboardPayload ∧
    (jsonDecode storyboardPayload).bind ytdlpOutputFromJson =
      some { zeroYTDLPOutput with Formats := [storyboardFormat] } ∧
    envStoryboardOnlyFailingSet.cacheGet = envStoryboardOnly.cacheGet ∧
    envStoryboardOnlyFailingSet.tool = envStoryboardOnly.tool ∧
    (fetchVideoMetaData envStoryboardOnly demoURL =
      { resp := some (buildVideoResponse { zeroYTDLPOutput with Formats := [storyboardFormat] }),
        err := none,
        effects := [.cacheGet ("video_meta:" ++ demoURL), .toolInvoke ["-j", demoURL],
                    .cacheSet ("video_meta:" ++ demoURL)
                      (marshalVideoResponse (buildVideoResponse
                        { zeroYTDLPOutput with Formats := [storyboardFormat] })) cacheTTLns] } ∧
     fetchVideoMetaData envStoryboardOnlyFailingSet demoURL =
       fetchVideoMetaData envStoryboardOnly demoURL) :=
  ⟨rfl, by decide, by decide, rfl, rfl, rfl, rfl, rfl,
   fresh_fetch_writes_cache_best_effort envStoryboardOnly envStoryboardOnlyFailingSet
     demoURL demoParsedURL storyboardPayload
     { zeroYTDLPOutput with Formats := [storyboardFormat] }
     rfl (by decide) (by decide) rfl rfl rfl rfl rfl⟩

/-- C9: serializing any `VideoResponse` and deserializing the result
yields the original value, field for field, medias included. -/
theorem videoResponse_marshal_roundtrip (v : VideoResponse) :
    videoResponseFromJson (marshalVideoResponse v) = some v :=
  vr_roundtrip v

/-- C10: a well-formed tool output whose every format is removed by the
filter makes the fetch succeed with an empty medias list, and the
/submit handler's unconditional `Medias[0]` access is then out of
bounds (a runtime panic in Go). -/
theorem empty_medias_first_access_out_of_bounds :
    (jsonDecode storyboardPayload).bind ytdlpOutputFromJson =
      some { zeroYTDLPOutput with Formats := [storyboardFormat] } ∧
    (fetchVideoMetaData envStoryboardOnly demoURL).err = none ∧
    (fetchVideoMetaData envStoryboardOnly demoURL).resp = some zeroVideoResponse ∧
    zeroVideoResponse.Medias = [] ∧
    submitSelectedFormatID zeroVideoResponse = none :=
  ⟨rfl, rfl, rfl, rfl, rfl⟩
